import Mathlib

/-!
Shallow embedding of the real-time WebSocket event-distribution layer of the
Adminkilo2 admin panel (source: `src/lib/websocket.ts`, concatenated in the
repository snapshot at `src/db/index.ts` lines 318-633, and the token helpers
of `src/lib/auth.ts`).

Modelling conventions:
- A JS `Map<string, Set<AuthenticatedWebSocket>>` is modelled as an
  association list `List (String × List Conn)`; `Map` key-uniqueness is the
  predicate `keysNodup`, and JS `Set` object identity is modelled by the
  numeric `connId` carried by each connection (`Set.add` / `Set.delete`
  compare `connId`s). A fresh `ws` object is a `connId` not yet in the
  registry. New `Map` keys and new `Set` members are appended at the end,
  matching JS insertion-order iteration.
- `ws.readyState === WebSocket.OPEN` is the Boolean field `isOpen`;
  `ws.isAlive` is the Boolean field `isAlive`.
- The JWT verifier (`jwt.verify`, external library) is a parameter
  `verify : String → Option JWTPayload`.
- Wire delivery is modelled by returning the list of `(connId, event)`
  pairs actually written; the serialized wire form of an event is the
  `Event` record itself (`JSON.stringify` is injective on it).
- Event payload objects are modelled as `List (String × String)` key/value
  pairs; Booleans in payloads are rendered with `toString`.
-/

/-- The closed event-type union `WebSocketEventType` from the repository's
type declarations (src/types, reproduced in API_DOCUMENTATION.md lines
1085-1099). It has exactly these fourteen members. -/
inductive WebSocketEventType where
  | device_online
  | device_offline
  | device_error
  | lamp_toggled
  | lamp_brightness_changed
  | permission_granted
  | permission_revoked
  | user_created
  | user_updated
  | user_deleted
  | alert_created
  | alert_resolved
  | system_maintenance_mode
  | system_config_updated
  deriving DecidableEq, Repr

/-- The wire string literal of each `WebSocketEventType` member, exactly as
written in the source union type. -/
def eventTypeWire : WebSocketEventType → String
  | .device_online => "device:online"
  | .device_offline => "device:offline"
  | .device_error => "device:error"
  | .lamp_toggled => "lamp:toggled"
  | .lamp_brightness_changed => "lamp:brightness_changed"
  | .permission_granted => "permission:granted"
  | .permission_revoked => "permission:revoked"
  | .user_created => "user:created"
  | .user_updated => "user:updated"
  | .user_deleted => "user:deleted"
  | .alert_created => "alert:created"
  | .alert_resolved => "alert:resolved"
  | .system_maintenance_mode => "system:maintenance_mode"
  | .system_config_updated => "system:config_updated"

/-- Modelled from the spec: the specification's name for each member of the
code's event-type enumeration, following the spec's closed enumeration list
(device-online, ..., maintenance-mode-changed, config-updated). The spec's
list additionally names a "connection-acknowledgement" entry; no member of
the code's union corresponds to it, so no constructor maps to that name. -/
def specEnumName : WebSocketEventType → String
  | .device_online => "device-online"
  | .device_offline => "device-offline"
  | .device_error => "device-error"
  | .lamp_toggled => "lamp-toggled"
  | .lamp_brightness_changed => "lamp-brightness-changed"
  | .permission_granted => "permission-granted"
  | .permission_revoked => "permission-revoked"
  | .user_created => "user-created"
  | .user_updated => "user-updated"
  | .user_deleted => "user-deleted"
  | .alert_created => "alert-created"
  | .alert_resolved => "alert-resolved"
  | .system_maintenance_mode => "maintenance-mode-changed"
  | .system_config_updated => "config-updated"

/-- The identity claims returned by `verifyToken` (src/lib/auth.ts lines
26-31). `role` is the string-typed union `UserRole`. -/
structure JWTPayload where
  userId : String
  username : String
  email : String
  role : String
  deriving DecidableEq, Repr

/-- An `AuthenticatedWebSocket` (src/lib/websocket.ts lines 326-331): the
raw socket (identified by `connId`, standing for JS object identity and for
`readyState` via `isOpen`) with the identity metadata attached at admission. -/
structure Conn where
  connId : Nat
  userId : String
  username : String
  role : String
  isAlive : Bool
  isOpen : Bool
  deriving DecidableEq, Repr

/-- A `WebSocketEvent` (the outbound wire record): type, ISO timestamp,
opaque structured payload, optional target user id. -/
structure Event where
  type : WebSocketEventType
  timestamp : String
  data : List (String × String)
  userId : Option String
  deriving DecidableEq, Repr

/-- The `clients` registry: `Map<string, Set<AuthenticatedWebSocket>>`. -/
abbrev Registry := List (String × List Conn)

/-- A delivered message: receiving connection id and the event written. -/
abbrev Send := Nat × Event

/-- JS `Set.add`: inserts the connection unless an identical object (same
`connId`) is already present; insertion at the end (JS iteration order). -/
def addConn (s : List Conn) (c : Conn) : List Conn :=
  if s.any (fun x => x.connId = c.connId) then s else s ++ [c]

/-- Registration step of the connection handler (src/lib/websocket.ts lines
367-371): create the per-user set if absent, then add the socket to it. A
missing key is created at the end of the map (JS `Map.set` order). -/
def register : Registry → String → Conn → Registry
  | [], u, c => [(u, [c])]
  | (k, s) :: rest, u, c =>
    if k = u then (k, addConn s c) :: rest
    else (k, s) :: register rest u c

/-- The `close`-handler removal (src/lib/websocket.ts lines 398-409): look
up the socket's user key, delete the socket from that set, and delete the
key when the set becomes empty. Acts on the first matching key, as a JS
`Map` holds each key once. -/
def removeConn : Registry → Conn → Registry
  | [], _ => []
  | (k, s) :: rest, c =>
    if k = c.userId then
      if (s.filter (fun x => x.connId ≠ c.connId)).isEmpty then rest
      else (k, s.filter (fun x => x.connId ≠ c.connId)) :: rest
    else (k, s) :: removeConn rest c

/-- `sendToClient` (src/lib/websocket.ts lines 444-448): write the event iff
the socket's `readyState` is `OPEN`; otherwise silently skip. -/
def sendToClient (c : Conn) (e : Event) : List Send :=
  if c.isOpen then [(c.connId, e)] else []

/-- The welcome message sent on successful admission (src/lib/websocket.ts
lines 376-380): `type: 'system:config_updated'`, a message payload, and no
`userId` field. -/
def welcomeEvent (ts : String) : Event :=
  { type := .system_config_updated
    timestamp := ts
    data := [("message", "Connected to Admin Panel WebSocket")]
    userId := none }

/-- Strips `pat` as a prefix of the character list, or fails. -/
def dropPat : List Char → List Char → Option (List Char)
  | l, [] => some l
  | [], _ :: _ => none
  | a :: l, b :: p => if a = b then dropPat l p else none

/-- First-occurrence replacement on character lists. -/
def replaceFirstChars (pat rep : List Char) : List Char → List Char
  | [] =>
    match dropPat [] pat with
    | some rest => rep ++ rest
    | none => []
  | a :: l =>
    match dropPat (a :: l) pat with
    | some rest => rep ++ rest
    | none => a :: replaceFirstChars pat rep l

/-- JS `String.prototype.replace` with a string pattern: replaces only the
first occurrence of `pat` in `s` by `rep`. -/
def replaceFirst (s pat rep : String) : String :=
  String.mk (replaceFirstChars pat.data rep.data s.data)

/-- JS truthiness of a `string | null | undefined` value: `null`,
`undefined` and the empty string are falsy. -/
def truthy : Option String → Bool
  | none => false
  | some s => !(s = "")

/-- Token extraction (src/lib/websocket.ts line 345):
`url.searchParams.get('token') || req.headers.authorization?.replace('Bearer ', '')`.
The JS `||` keeps the query value only when it is truthy (present and
non-empty); otherwise it evaluates to the header value with the first
`"Bearer "` occurrence stripped (or `undefined` when the header is absent). -/
def wsToken (queryToken authHeader : Option String) : Option String :=
  let headerToken := authHeader.map (fun a => replaceFirst a "Bearer " "")
  if truthy queryToken then queryToken else headerToken

/-- Outcome of one `connection` handler run: the registry afterwards, the
messages written, the close invocation (code, reason) if any, and the
connection object registered on success. -/
structure AdmitResult where
  registry : Registry
  sends : List Send
  closed : Option (Nat × String)
  admitted : Option Conn
  deriving Repr

/-- The connection object built on successful verification (src/lib/websocket.ts
lines 361-365): the verified identity attached to the socket, `isAlive` set
to `true`; the socket that just completed the upgrade is open. -/
def admittedConn (cid : Nat) (p : JWTPayload) : Conn :=
  { connId := cid, userId := p.userId, username := p.username
    role := p.role, isAlive := true, isOpen := true }

/-- The `connection` handler (src/lib/websocket.ts lines 340-380): extract
the token; if falsy, `ws.close(1008, 'Authentication required')`; verify it;
on `null`, `ws.close(1008, 'Invalid token')`; on success attach the verified
identity to the socket, mark it alive, register it, and send the welcome
message to it. `verify` abstracts `verifyToken` and `cid` is the fresh
socket's identity; `ts` is the current ISO timestamp. -/
def handleConnection (verify : String → Option JWTPayload) (r : Registry)
    (queryToken authHeader : Option String) (cid : Nat) (ts : String) : AdmitResult :=
  match wsToken queryToken authHeader with
  | none => ⟨r, [], some (1008, "Authentication required"), none⟩
  | some t =>
    if t = "" then ⟨r, [], some (1008, "Authentication required"), none⟩
    else
      match verify t with
      | none => ⟨r, [], some (1008, "Invalid token"), none⟩
      | some p =>
        ⟨register r p.userId (admittedConn cid p),
         sendToClient (admittedConn cid p) (welcomeEvent ts), none,
         some (admittedConn cid p)⟩

/-- `createEvent` (src/lib/websocket.ts lines 524-535). -/
def createEvent (type : WebSocketEventType) (ts : String)
    (data : List (String × String)) (userId : Option String) : Event :=
  { type := type, timestamp := ts, data := data, userId := userId }

/-- `getConnectedCount` (src/lib/websocket.ts lines 505-507):
`this.clients.size`. -/
def getConnectedCount (r : Registry) : Nat :=
  r.length

/-- `getConnectedUserIds` (src/lib/websocket.ts lines 512-514):
`Array.from(this.clients.keys())`. -/
def getConnectedUserIds (r : Registry) : List String :=
  r.map Prod.fst

/-- `broadcastToUser` (src/lib/websocket.ts lines 457-465): look the user up
in `clients`; if present, `sendToClient` the event to each socket of the
set; if absent, do nothing. The method never writes `this.clients`; the
returned registry is the input one. -/
def broadcastToUser (r : Registry) (userId : String) (e : Event) :
    Registry × List Send :=
  match r.find? (fun en => en.1 = userId) with
  | none => (r, [])
  | some en => (r, en.2.flatMap (fun c => sendToClient c e))

/-- `broadcastToAll` (src/lib/websocket.ts lines 470-477): `sendToClient`
to every socket of every user set. -/
def broadcastToAll (r : Registry) (e : Event) : List Send :=
  r.flatMap (fun en => en.2.flatMap (fun c => sendToClient c e))

/-- `broadcastToAdmins` (src/lib/websocket.ts lines 482-491): `sendToClient`
to every socket whose captured `role` is `'admin'` or `'super_admin'`. -/
def broadcastToAdmins (r : Registry) (e : Event) : List Send :=
  r.flatMap (fun en => en.2.flatMap (fun c =>
    if c.role = "admin" ∨ c.role = "super_admin" then sendToClient c e else []))

/-- `broadcastLampToggled` (src/lib/websocket.ts lines 557-561): a
`lamp:toggled` event built with the acting user's id, broadcast to all. -/
def lampToggledEvent (ts lampId lampName : String) (isOn : Bool)
    (userId : String) : Event :=
  createEvent .lamp_toggled ts
    [("lampId", lampId), ("lampName", lampName), ("isOn", toString isOn)]
    (some userId)

/-- `broadcastDeviceOnline` (src/lib/websocket.ts lines 538-542): a
`device:online` event with no target user, broadcast to all. -/
def deviceOnlineEvent (ts controllerId controllerName : String) : Event :=
  createEvent .device_online ts
    [("controllerId", controllerId), ("controllerName", controllerName)] none

/-- `broadcastPermissionGranted` (src/lib/websocket.ts lines 570-575): a
`permission:granted` event targeted at `userId`, routed to that user. -/
def permissionGrantedEvent (ts resourceType resourceId accessLevel
    userId : String) : Event :=
  createEvent .permission_granted ts
    [("resourceType", resourceType), ("resourceId", resourceId),
     ("accessLevel", accessLevel)] (some userId)

/-- One liveness sweep over a user's socket set (src/lib/websocket.ts lines
417-427): a socket whose `isAlive` is already `false` is terminated (its
close event runs the removal handler), every surviving socket has `isAlive`
set to `false` and is pinged. -/
def sweepSet (s : List Conn) : List Conn :=
  (s.filter (fun c => c.isAlive)).map (fun c => { c with isAlive := false })

/-- The 30-second heartbeat sweep (src/lib/websocket.ts lines 417-427) as
its net effect on the registry: dead sockets are terminated and hence
removed by their close handlers (dropping a user key when its set empties),
and survivors are marked unconfirmed. -/
def sweep : Registry → Registry
  | [] => []
  | (k, s) :: rest =>
    let s' := sweepSet s
    if s'.isEmpty then sweep rest else (k, s') :: sweep rest

/-- The `pong` handler (src/lib/websocket.ts lines 383-385): the answering
socket's `isAlive` is set back to `true`. -/
def pongConn (r : Registry) (cid : Nat) : Registry :=
  r.map (fun en => (en.1, en.2.map (fun c =>
    if c.connId = cid then { c with isAlive := true } else c)))

/-- A batch of pong answers arriving between two sweeps. -/
def applyPongs (r : Registry) (l : List Nat) : Registry :=
  l.foldl pongConn r

/-- The heartbeat interval constant (src/lib/websocket.ts line 427). -/
def heartbeatIntervalMs : Nat := 30000

/-- Registry invariant (spec §3): every key's set is non-empty. -/
def noEmpty (r : Registry) : Prop :=
  ∀ en ∈ r, en.2 ≠ []

/-- All socket identities present anywhere in the registry. -/
def allConnIds (r : Registry) : List Nat :=
  r.flatMap (fun en => en.2.map (fun c => c.connId))

/-- All connections registered anywhere in the registry, in iteration order. -/
def connsList (r : Registry) : List Conn :=
  r.flatMap (fun en => en.2)

/-- Registry invariant (spec §3): no socket appears in two sets (nor twice
in one) — its identity occurs at most once in the whole registry. -/
def nodupConnIds (r : Registry) : Prop :=
  (allConnIds r).Nodup

/-- A JS `Map` holds each key at most once. -/
def keysNodup (r : Registry) : Prop :=
  (r.map Prod.fst).Nodup

/-- A socket object not yet registered anywhere (a freshly accepted one). -/
def freshConn (r : Registry) (cid : Nat) : Prop :=
  cid ∉ allConnIds r

/-- The socket with identity `cid`, wherever registered, is unconfirmed
(`isAlive = false`) — or not registered at all. -/
def deadOrAbsent (r : Registry) (cid : Nat) : Prop :=
  ∀ en ∈ r, ∀ c ∈ en.2, c.connId = cid → c.isAlive = false

/-- Total number of registered sockets, across all users. -/
def totalConnections (r : Registry) : Nat :=
  (r.map (fun en => en.2.length)).sum

instance (r : Registry) : Decidable (noEmpty r) :=
  inferInstanceAs (Decidable (∀ en ∈ r, en.2 ≠ []))

instance (r : Registry) : Decidable (nodupConnIds r) :=
  inferInstanceAs (Decidable (allConnIds r).Nodup)

instance (r : Registry) : Decidable (keysNodup r) :=
  inferInstanceAs (Decidable (r.map Prod.fst).Nodup)

instance (r : Registry) (cid : Nat) : Decidable (freshConn r cid) :=
  inferInstanceAs (Decidable (cid ∉ allConnIds r))

/-! ### Concrete values used by witnesses and counterexamples -/

/-- A sample verified identity. -/
def demoPayload : JWTPayload :=
  { userId := "alice", username := "Alice", email := "alice@example.com", role := "user" }

/-- A verifier accepting exactly the credential string `"tok"`. -/
def demoVerify : String → Option JWTPayload := fun t =>
  if t = "tok" then some demoPayload else none

/-- A second sample verified identity. -/
def demoHeaderPayload : JWTPayload :=
  { userId := "hank", username := "Hank", email := "hank@example.com", role := "user" }

/-- A verifier accepting exactly the credential string `"abc"`. -/
def demoHeaderVerify : String → Option JWTPayload := fun t =>
  if t = "abc" then some demoHeaderPayload else none

/-- The registry after the same user is admitted twice (two tabs). -/
def demoTwoTabs : Registry :=
  (handleConnection demoVerify
    (handleConnection demoVerify [] (some "tok") none 0 "T0").registry
    (some "tok") none 1 "T1").registry

/-- A registered open connection of the user `"bob"`. -/
def bobConn : Conn :=
  { connId := 0, userId := "bob", username := "Bob", role := "user",
    isAlive := true, isOpen := true }

/-- A registry holding only `bobConn`. -/
def demoBobRegistry : Registry := [("bob", [bobConn])]

/-- A registered open connection with captured role `'admin'`. -/
def adminConn : Conn :=
  { connId := 1, userId := "ada", username := "Ada", role := "admin",
    isAlive := true, isOpen := true }

/-- A registry holding one admin connection and one user connection. -/
def demoMixedRegistry : Registry := [("ada", [adminConn]), ("bob", [bobConn])]

/-! ### Helper lemmas -/

theorem mem_sendToClient {c : Conn} {e : Event} {s : Send} :
    s ∈ sendToClient c e ↔ (c.isOpen = true ∧ s = (c.connId, e)) := by
  unfold sendToClient
  split <;> simp_all

/-! ### C4 — failed admission closes with 1008 and registers nothing -/

/-- C4: for every admission attempt whose credential is missing (no token, or
an empty token after extraction) or fails verification, the handler closes
the stream with policy-violation code 1008, sends nothing, registers
nothing, and leaves the `clients` mapping and `getConnectedUserIds`
unchanged. -/
theorem C4_admission_failure (verify : String → Option JWTPayload)
    (r : Registry) (queryToken authHeader : Option String) (cid : Nat) (ts : String)
    (hfail : ∀ t, wsToken queryToken authHeader = some t → t ≠ "" → verify t = none) :
    (handleConnection verify r queryToken authHeader cid ts).registry = r ∧
    (∃ reason, (handleConnection verify r queryToken authHeader cid ts).closed =
      some (1008, reason)) ∧
    (handleConnection verify r queryToken authHeader cid ts).sends = [] ∧
    (handleConnection verify r queryToken authHeader cid ts).admitted = none ∧
    getConnectedUserIds (handleConnection verify r queryToken authHeader cid ts).registry =
      getConnectedUserIds r := by
  unfold handleConnection
  split
  · exact ⟨rfl, ⟨_, rfl⟩, rfl, rfl, rfl⟩
  · rename_i t hw
    split
    · exact ⟨rfl, ⟨_, rfl⟩, rfl, rfl, rfl⟩
    · rename_i ht
      rw [hfail t hw ht]
      exact ⟨rfl, ⟨_, rfl⟩, rfl, rfl, rfl⟩

theorem C4_admission_failure_witness :
    (handleConnection demoVerify [] (some "bad") none 0 "T").registry = [] ∧
    (∃ reason, (handleConnection demoVerify [] (some "bad") none 0 "T").closed =
      some (1008, reason)) ∧
    (handleConnection demoVerify [] (some "bad") none 0 "T").sends = [] ∧
    (handleConnection demoVerify [] (some "bad") none 0 "T").admitted = none ∧
    getConnectedUserIds (handleConnection demoVerify [] (some "bad") none 0 "T").registry =
      getConnectedUserIds [] :=
  C4_admission_failure demoVerify [] (some "bad") none 0 "T" (by
    intro t ht hne
    have : t = "bad" := by
      have h1 : wsToken (some "bad") none = some "bad" := rfl
      rw [h1] at ht
      exact (Option.some_inj.mp ht).symm
    subst this
    rfl)

/-! ### C7 — query parameter precedence over the authorization header -/

/-- C7 (counterexample): with both the query parameter and the header
present but the query value empty, the extracted credential is the header
token `"abc"`, not the query value `""` — the handler verifies `"abc"` and
admits, where passing `""` would have been rejected as missing. -/
theorem C7_counterexample :
    wsToken (some "") (some "Bearer abc") = some "abc" ∧
    (handleConnection demoHeaderVerify [] (some "") (some "Bearer abc") 0 "T").admitted ≠
      none ∧
    ("abc" : String) ≠ "" := by
  refine ⟨by decide, by decide, by decide⟩

/-- C7 (amended): whenever both a `token` query parameter and an
authorization header are present and the query value is non-empty, the
credential extracted (and hence passed to the verifier) is the query value;
with an empty query value the JS `||` falls through to the header. -/
theorem C7_query_param_precedence (qs h : String) (hne : qs ≠ "") :
    wsToken (some qs) (some h) = some qs := by
  simp [wsToken, truthy, hne]

theorem C7_query_param_precedence_witness :
    wsToken (some "q") (some "Bearer abc") = some "q" :=
  C7_query_param_precedence "q" "Bearer abc" (by decide)

/-! ### C2 — the successful-admission acknowledgement -/

/-- C2 (counterexample): a concrete successful admission sends exactly one
event, but its type is the config-updated member of the enumeration
(`'system:config_updated'` on the wire), and no member of the code's closed
event-type enumeration is a connection-acknowledgement. -/
theorem C2_counterexample :
    (handleConnection demoVerify [] (some "tok") none 0 "T0").sends.map
        (fun s => specEnumName s.2.type) = ["config-updated"] ∧
    (∀ t : WebSocketEventType, specEnumName t ≠ "connection-acknowledgement") := by
  refine ⟨by decide, ?_⟩
  intro t
  cases t <;> decide

/-- C2 (amended): for every successful admission (non-empty extracted
credential that the verifier accepts), exactly one acknowledgement event is
sent, it goes to the newly admitted connection only, and its type is
`'system:config_updated'` — the config-updated member of the enumeration,
the enumeration having no connection-acknowledgement member. -/
theorem C2_welcome_event (verify : String → Option JWTPayload) (r : Registry)
    (queryToken authHeader : Option String) (cid : Nat) (ts t : String) (p : JWTPayload)
    (hw : wsToken queryToken authHeader = some t) (hne : t ≠ "")
    (hv : verify t = some p) :
    (handleConnection verify r queryToken authHeader cid ts).sends =
      [(cid, welcomeEvent ts)] ∧
    (welcomeEvent ts).type = WebSocketEventType.system_config_updated ∧
    ((handleConnection verify r queryToken authHeader cid ts).admitted.map
      (fun c => c.connId)) = some cid := by
  unfold handleConnection
  rw [hw]
  simp only [hne, if_false, reduceIte]
  rw [hv]
  exact ⟨rfl, rfl, rfl⟩

theorem C2_welcome_event_witness :
    (handleConnection demoVerify [] (some "tok") none 0 "T0").sends =
      [(0, welcomeEvent "T0")] ∧
    (welcomeEvent "T0").type = WebSocketEventType.system_config_updated ∧
    ((handleConnection demoVerify [] (some "tok") none 0 "T0").admitted.map
      (fun c => c.connId)) = some 0 :=
  C2_welcome_event demoVerify [] (some "tok") none 0 "T0" "tok" demoPayload
    (by decide) (by decide) (by decide)

/-! ### C6 — the userId field on delivered events -/

/-- C6 (counterexample): `broadcastLampToggled` hands `broadcastToAll` an
event constructed with the acting user's id, so a connection of a different
user (`bobConn`) receives, via the broadcast-to-all route, a wire event
whose `userId` field is present (`some "alice"`). -/
theorem C6_counterexample :
    broadcastToAll demoBobRegistry (lampToggledEvent "T" "l1" "Lamp 1" true "alice") =
      [(0, lampToggledEvent "T" "l1" "Lamp 1" true "alice")] ∧
    (lampToggledEvent "T" "l1" "Lamp 1" true "alice").userId = some "alice" ∧
    bobConn.userId ≠ "alice" := by
  decide

/-- C6 (amended): every routing method delivers the event record verbatim —
the wire `userId` field is exactly the one the event was constructed with,
regardless of the addressing mode; the device event constructors set no
`userId`, while `broadcastLampToggled` (routed to all) and
`broadcastPermissionGranted` (routed to the subject) both set one. -/
theorem C6_userid_passthrough :
    (∀ (r : Registry) (e : Event) (s : Send), s ∈ broadcastToAll r e → s.2 = e) ∧
    (∀ (r : Registry) (e : Event) (s : Send), s ∈ broadcastToAdmins r e → s.2 = e) ∧
    (∀ (r : Registry) (u : String) (e : Event) (s : Send),
        s ∈ (broadcastToUser r u e).2 → s.2 = e) ∧
    (∀ (ts lampId lampName userId : String) (isOn : Bool),
        (lampToggledEvent ts lampId lampName isOn userId).userId = some userId) ∧
    (∀ ts controllerId controllerName,
        (deviceOnlineEvent ts controllerId controllerName).userId = none) ∧
    (∀ ts resourceType resourceId accessLevel userId,
        (permissionGrantedEvent ts resourceType resourceId accessLevel
          userId).userId = some userId) := by
  refine ⟨?_, ?_, ?_, fun _ _ _ _ _ => rfl, fun _ _ _ => rfl, fun _ _ _ _ _ => rfl⟩
  · intro r e s hs
    rw [broadcastToAll, List.mem_flatMap] at hs
    obtain ⟨en, _, hs⟩ := hs
    rw [List.mem_flatMap] at hs
    obtain ⟨c, _, hs⟩ := hs
    exact congrArg Prod.snd (mem_sendToClient.mp hs).2
  · intro r e s hs
    rw [broadcastToAdmins, List.mem_flatMap] at hs
    obtain ⟨en, _, hs⟩ := hs
    rw [List.mem_flatMap] at hs
    obtain ⟨c, _, hs⟩ := hs
    split at hs
    · exact congrArg Prod.snd (mem_sendToClient.mp hs).2
    · simp at hs
  · intro r u e s hs
    unfold broadcastToUser at hs
    split at hs
    · simp at hs
    · rw [List.mem_flatMap] at hs
      obtain ⟨c, _, hs⟩ := hs
      exact congrArg Prod.snd (mem_sendToClient.mp hs).2

theorem C6_userid_passthrough_witness :
    ((0 : Nat), lampToggledEvent "T" "l1" "Lamp 1" true "alice").2 =
      lampToggledEvent "T" "l1" "Lamp 1" true "alice" :=
  C6_userid_passthrough.1 demoBobRegistry
    (lampToggledEvent "T" "l1" "Lamp 1" true "alice")
    (0, lampToggledEvent "T" "l1" "Lamp 1" true "alice") (by decide)

/-! ### C10 — connected count counts subjects, not connections -/

/-- C10: `getConnectedCount` returns the size of the `clients` map — the
number of distinct subject-ids holding at least one registered connection —
which always equals the length of `getConnectedUserIds`, and on the
two-tabs registry (one subject admitted twice) it is 1 while the total
connection count is 2. -/
theorem C10_count_is_distinct_subjects (r : Registry)
    (hk : keysNodup r) (hne : noEmpty r) :
    getConnectedCount r = (getConnectedUserIds r).length ∧
    getConnectedCount r =
      ((r.filter (fun en => !en.2.isEmpty)).map Prod.fst).dedup.length ∧
    (getConnectedCount demoTwoTabs = 1 ∧ totalConnections demoTwoTabs = 2 ∧
      getConnectedCount demoTwoTabs < totalConnections demoTwoTabs) := by
  refine ⟨by simp [getConnectedCount, getConnectedUserIds], ?_, by decide⟩
  have hfil : r.filter (fun en => !en.2.isEmpty) = r := by
    apply List.filter_eq_self.mpr
    intro en hen
    simpa [List.isEmpty_iff] using hne en hen
  rw [hfil, List.Nodup.dedup hk]
  simp [getConnectedCount, getConnectedUserIds]

theorem C10_count_is_distinct_subjects_witness :
    getConnectedCount demoTwoTabs = (getConnectedUserIds demoTwoTabs).length ∧
    getConnectedCount demoTwoTabs =
      ((demoTwoTabs.filter (fun en => !en.2.isEmpty)).map Prod.fst).dedup.length ∧
    (getConnectedCount demoTwoTabs = 1 ∧ totalConnections demoTwoTabs = 2 ∧
      getConnectedCount demoTwoTabs < totalConnections demoTwoTabs) :=
  C10_count_is_distinct_subjects demoTwoTabs (by decide) (by decide)

/-! ### C8 — Remove is idempotent -/

theorem removeConn_not_key {r : Registry} {c : Conn}
    (h : c.userId ∉ r.map Prod.fst) : removeConn r c = r := by
  induction r with
  | nil => rfl
  | cons en rest ih =>
    obtain ⟨k, s⟩ := en
    simp only [List.map_cons, List.mem_cons, not_or] at h
    rw [removeConn, if_neg (fun hk => h.1 hk.symm), ih h.2]

/-- C8: removing a connection twice from any registry state with unique map
keys yields the same state as removing it once — the second removal is a
no-op, not an error. -/
theorem C8_remove_idempotent (r : Registry) (c : Conn) (hk : keysNodup r) :
    removeConn (removeConn r c) c = removeConn r c := by
  induction r with
  | nil => rfl
  | cons en rest ih =>
    obtain ⟨k, s⟩ := en
    rw [keysNodup, List.map_cons, List.nodup_cons] at hk
    obtain ⟨hknot, hrest⟩ := hk
    by_cases hu : k = c.userId
    · subst hu
      rw [removeConn, if_pos rfl]
      by_cases hempty : (s.filter (fun x => x.connId ≠ c.connId)).isEmpty
      · rw [if_pos hempty]
        exact removeConn_not_key hknot
      · rw [if_neg hempty, removeConn, if_pos rfl]
        have hff : (s.filter (fun x => x.connId ≠ c.connId)).filter
            (fun x => x.connId ≠ c.connId) = s.filter (fun x => x.connId ≠ c.connId) := by
          rw [List.filter_filter]
          simp
        rw [hff, if_neg hempty]
    · rw [removeConn, if_neg hu, removeConn, if_neg hu, ih hrest]

theorem C8_remove_idempotent_witness :
    removeConn (removeConn demoBobRegistry bobConn) bobConn =
      removeConn demoBobRegistry bobConn :=
  C8_remove_idempotent demoBobRegistry bobConn (by decide)

/-! ### C3 — registry invariants preserved by Admit and Remove -/

theorem allConnIds_nil : allConnIds [] = [] := rfl

theorem allConnIds_cons (k : String) (s : List Conn) (rest : Registry) :
    allConnIds ((k, s) :: rest) = s.map (fun c => c.connId) ++ allConnIds rest := by
  simp [allConnIds]

theorem noEmpty_register {r : Registry} {u : String} {c : Conn}
    (hne : noEmpty r) : noEmpty (register r u c) := by
  induction r with
  | nil =>
    intro en hen
    simp only [register, List.mem_singleton] at hen
    subst hen
    simp
  | cons en rest ih =>
    obtain ⟨k, s⟩ := en
    have hs : s ≠ [] := hne (k, s) (List.mem_cons_self _ _)
    have hrest : noEmpty rest := fun x hx => hne x (List.mem_cons_of_mem _ hx)
    rw [register]
    split
    · intro x hx
      rcases List.mem_cons.mp hx with h | h
      · subst h
        unfold addConn
        split
        · exact hs
        · simp
      · exact hrest x h
    · intro x hx
      rcases List.mem_cons.mp hx with h | h
      · subst h
        exact hs
      · exact ih hrest x h

theorem mem_allConnIds_register {r : Registry} {u : String} {c : Conn} {x : Nat}
    (hx : x ∈ allConnIds (register r u c)) :
    x = c.connId ∨ x ∈ allConnIds r := by
  induction r with
  | nil =>
    rw [register, allConnIds_cons, allConnIds_nil, List.append_nil] at hx
    simp only [List.map_cons, List.map_nil, List.mem_singleton] at hx
    exact Or.inl hx
  | cons en rest ih =>
    obtain ⟨k, s⟩ := en
    rw [register] at hx
    split at hx
    · rw [allConnIds_cons] at hx
      rcases List.mem_append.mp hx with h | h
      · unfold addConn at h
        split at h
        · exact Or.inr (by rw [allConnIds_cons]; exact List.mem_append_left _ h)
        · rw [List.map_append, List.mem_append] at h
          rcases h with h | h
          · exact Or.inr (by rw [allConnIds_cons]; exact List.mem_append_left _ h)
          · simp only [List.map_cons, List.map_nil, List.mem_singleton] at h
            exact Or.inl h
      · exact Or.inr (by rw [allConnIds_cons]; exact List.mem_append_right _ h)
    · rw [allConnIds_cons] at hx
      rcases List.mem_append.mp hx with h | h
      · exact Or.inr (by rw [allConnIds_cons]; exact List.mem_append_left _ h)
      · rcases ih h with h' | h'
        · exact Or.inl h'
        · exact Or.inr (by rw [allConnIds_cons]; exact List.mem_append_right _ h')

theorem nodupConnIds_register {r : Registry} {u : String} {c : Conn}
    (hnd : nodupConnIds r) (hfresh : c.connId ∉ allConnIds r) :
    nodupConnIds (register r u c) := by
  induction r with
  | nil =>
    rw [nodupConnIds, register, allConnIds_cons, allConnIds_nil, List.append_nil]
    simp
  | cons en rest ih =>
    obtain ⟨k, s⟩ := en
    rw [nodupConnIds, allConnIds_cons] at hnd
    rw [allConnIds_cons] at hfresh
    simp only [List.mem_append, not_or] at hfresh
    obtain ⟨hfs, hfrest⟩ := hfresh
    rw [nodupConnIds, register]
    split
    · rw [allConnIds_cons]
      unfold addConn
      split
      · rename_i hany
        exfalso
        rcases List.any_eq_true.mp hany with ⟨x, hxs, hxc⟩
        exact hfs (by
          rw [List.mem_map]
          exact ⟨x, hxs, by simpa using hxc⟩)
      · rw [List.map_append]
        simp only [List.map_cons, List.map_nil]
        rw [List.append_assoc, List.singleton_append, List.nodup_middle]
        refine List.nodup_cons.mpr ⟨?_, hnd⟩
        simp only [List.mem_append, not_or]
        exact ⟨hfs, hfrest⟩
    · rw [allConnIds_cons, List.nodup_append]
      obtain ⟨h1, h2, h3⟩ := List.nodup_append.mp hnd
      refine ⟨h1, ih h2 hfrest, ?_⟩
      intro a ha hb
      rcases mem_allConnIds_register hb with h' | h'
      · exact hfs (h' ▸ ha)
      · exact h3 ha h'

theorem noEmpty_removeConn {r : Registry} {c : Conn}
    (hne : noEmpty r) : noEmpty (removeConn r c) := by
  induction r with
  | nil => exact fun x hx => absurd hx (List.not_mem_nil x)
  | cons en rest ih =>
    obtain ⟨k, s⟩ := en
    have hrest : noEmpty rest := fun x hx => hne x (List.mem_cons_of_mem _ hx)
    rw [removeConn]
    split
    · split
      · exact hrest
      · rename_i hempty
        intro x hx
        rcases List.mem_cons.mp hx with h | h
        · subst h
          exact fun hnil => hempty (List.isEmpty_iff.mpr hnil)
        · exact hrest x h
    · intro x hx
      rcases List.mem_cons.mp hx with h | h
      · subst h
        exact hne (k, s) (List.mem_cons_self _ _)
      · exact ih hrest x h

theorem allConnIds_removeConn_sublist (r : Registry) (c : Conn) :
    List.Sublist (allConnIds (removeConn r c)) (allConnIds r) := by
  induction r with
  | nil => exact List.Sublist.refl _
  | cons en rest ih =>
    obtain ⟨k, s⟩ := en
    rw [removeConn]
    split
    · split
      · rw [allConnIds_cons]
        exact List.sublist_append_right _ _
      · rw [allConnIds_cons, allConnIds_cons]
        exact List.Sublist.append
          (List.Sublist.map _ (List.filter_sublist s)) (List.Sublist.refl _)
    · rw [allConnIds_cons, allConnIds_cons]
      exact List.Sublist.append (List.Sublist.refl _) ih

theorem nodupConnIds_removeConn {r : Registry} {c : Conn}
    (hnd : nodupConnIds r) : nodupConnIds (removeConn r c) :=
  List.Nodup.sublist (allConnIds_removeConn_sublist r c) hnd

/-- C3: both registry invariants — every present key maps to a non-empty
connection set (so a key exists iff its set is non-empty, an emptied set's
key being deleted by the same removal), and no connection identity appears
under more than one key (nor twice at all) — are preserved by the admission
registration of a fresh socket and by the close-handler removal. -/
theorem C3_registry_invariants (r : Registry) (p : JWTPayload) (cid : Nat)
    (c : Conn) (hne : noEmpty r) (hnd : nodupConnIds r) (hfresh : freshConn r cid) :
    (noEmpty (register r p.userId (admittedConn cid p)) ∧
     nodupConnIds (register r p.userId (admittedConn cid p))) ∧
    (noEmpty (removeConn r c) ∧ nodupConnIds (removeConn r c)) :=
  ⟨⟨noEmpty_register hne, nodupConnIds_register hnd hfresh⟩,
   ⟨noEmpty_removeConn hne, nodupConnIds_removeConn hnd⟩⟩

theorem C3_registry_invariants_witness :
    (noEmpty (register demoBobRegistry demoPayload.userId (admittedConn 7 demoPayload)) ∧
     nodupConnIds (register demoBobRegistry demoPayload.userId (admittedConn 7 demoPayload))) ∧
    (noEmpty (removeConn demoBobRegistry bobConn) ∧
     nodupConnIds (removeConn demoBobRegistry bobConn)) :=
  C3_registry_invariants demoBobRegistry demoPayload 7 bobConn
    (by decide) (by decide) (by decide)

/-! ### Connection-identity lemmas shared by the routing claims -/

theorem connsList_cons (k : String) (s : List Conn) (rest : Registry) :
    connsList ((k, s) :: rest) = s ++ connsList rest := by
  simp [connsList]

theorem allConnIds_eq_map (r : Registry) :
    allConnIds r = (connsList r).map (fun c => c.connId) := by
  induction r with
  | nil => rfl
  | cons en rest ih =>
    obtain ⟨k, s⟩ := en
    rw [allConnIds_cons, connsList_cons, List.map_append, ih]

theorem mem_connsList {r : Registry} {en : String × List Conn} {c : Conn}
    (h : en ∈ r) (hc : c ∈ en.2) : c ∈ connsList r := by
  rw [connsList, List.mem_flatMap]
  exact ⟨en, h, hc⟩

theorem conn_eq_of_connId {r : Registry} (hnd : nodupConnIds r) {c1 c2 : Conn}
    (h1 : c1 ∈ connsList r) (h2 : c2 ∈ connsList r)
    (heq : c1.connId = c2.connId) : c1 = c2 := by
  rw [nodupConnIds, allConnIds_eq_map r] at hnd
  exact List.inj_on_of_nodup_map hnd h1 h2 heq

theorem connId_mem_allConnIds {r : Registry} {en : String × List Conn} {c : Conn}
    (h : en ∈ r) (hc : c ∈ en.2) : c.connId ∈ allConnIds r := by
  rw [allConnIds, List.mem_flatMap]
  exact ⟨en, h, List.mem_map.mpr ⟨c, hc, rfl⟩⟩

theorem connId_ne_of_entries {r : Registry} (hnd : nodupConnIds r)
    {en1 en2 : String × List Conn} {c1 c2 : Conn}
    (h1 : en1 ∈ r) (h2 : en2 ∈ r) (hne : en1.1 ≠ en2.1)
    (hc1 : c1 ∈ en1.2) (hc2 : c2 ∈ en2.2) : c1.connId ≠ c2.connId := by
  induction r with
  | nil => cases h1
  | cons en rest ih =>
    obtain ⟨k, s⟩ := en
    rw [nodupConnIds, allConnIds_cons] at hnd
    have hdisj := List.disjoint_of_nodup_append hnd
    have hrest : nodupConnIds rest := (List.nodup_append.mp hnd).2.1
    rcases List.mem_cons.mp h1 with he1 | he1 <;>
      rcases List.mem_cons.mp h2 with he2 | he2
    · exact absurd (he2 ▸ he1 ▸ rfl) hne
    · subst he1
      exact fun heq => hdisj (List.mem_map.mpr ⟨c1, hc1, rfl⟩)
        (heq ▸ connId_mem_allConnIds he2 hc2)
    · subst he2
      intro heq
      exact hdisj (List.mem_map.mpr ⟨c2, hc2, rfl⟩)
        (heq ▸ connId_mem_allConnIds he1 hc1)
    · exact ih hrest he1 he2

theorem find?_eq_some_of_mem {r : Registry} {u : String} {s : List Conn}
    (hk : keysNodup r) (h : (u, s) ∈ r) :
    r.find? (fun en => en.1 = u) = some (u, s) := by
  induction r with
  | nil => cases h
  | cons en rest ih =>
    obtain ⟨k, t⟩ := en
    rw [keysNodup, List.map_cons, List.nodup_cons] at hk
    rcases List.mem_cons.mp h with heq | hmem
    · rw [← heq]
      exact List.find?_cons_of_pos _ (by simp)
    · have hku : ¬(k = u) := fun hk' =>
        hk.1 (hk' ▸ List.mem_map.mpr ⟨(u, s), hmem, rfl⟩)
      rw [List.find?_cons_of_neg _ (by simpa using hku)]
      exact ih hk.2 hmem

/-! ### C5 — role-filtered broadcast to administrators -/

theorem mem_roleFiltered {c : Conn} {e : Event} {s : Send} :
    s ∈ (if c.role = "admin" ∨ c.role = "super_admin" then sendToClient c e
         else []) ↔
      ((c.role = "admin" ∨ c.role = "super_admin") ∧ c.isOpen = true ∧
        s = (c.connId, e)) := by
  split
  · rename_i h
    rw [mem_sendToClient]
    exact ⟨fun ⟨h1, h2⟩ => ⟨h, h1, h2⟩, fun ⟨_, h1, h2⟩ => ⟨h1, h2⟩⟩
  · rename_i h
    simp only [List.not_mem_nil, false_iff, not_and]
    exact fun hr => absurd hr h

theorem mem_broadcastToAdmins {r : Registry} {e : Event} {s : Send} :
    s ∈ broadcastToAdmins r e ↔
      ∃ en ∈ r, ∃ c ∈ en.2, (c.role = "admin" ∨ c.role = "super_admin") ∧
        c.isOpen = true ∧ s = (c.connId, e) := by
  rw [broadcastToAdmins]
  simp only [List.mem_flatMap, mem_roleFiltered]

/-- C5: for every `broadcastToAdmins(E)` call, every registered connection
whose role captured at admission is `'admin'` or `'super_admin'` (and whose
transport is open for writing, the delivery rule skipping closed sockets)
receives E, and a registered connection whose captured role is `'user'` or
`'viewer'` receives nothing at all from that call. -/
theorem C5_broadcast_to_admins (r : Registry) (e : Event)
    (hnd : nodupConnIds r) :
    (∀ en ∈ r, ∀ c ∈ en.2, (c.role = "admin" ∨ c.role = "super_admin") →
        c.isOpen = true → (c.connId, e) ∈ broadcastToAdmins r e) ∧
    (∀ en ∈ r, ∀ c ∈ en.2, (c.role = "user" ∨ c.role = "viewer") →
        ∀ ev : Event, (c.connId, ev) ∉ broadcastToAdmins r e) := by
  constructor
  · intro en hen c hc hrole hopen
    exact mem_broadcastToAdmins.mpr ⟨en, hen, c, hc, hrole, hopen, rfl⟩
  · intro en hen c hc hrole ev hmem
    obtain ⟨en', hen', c', hc', hrole', _, heq⟩ := mem_broadcastToAdmins.mp hmem
    have hid : c.connId = c'.connId := congrArg Prod.fst heq
    have hcc : c = c' :=
      conn_eq_of_connId hnd (mem_connsList hen hc) (mem_connsList hen' hc') hid
    rcases hrole with h | h <;> rcases (hcc ▸ hrole' :
        c.role = "admin" ∨ c.role = "super_admin") with h' | h' <;>
      (rw [h] at h'; exact absurd h' (by decide))

theorem C5_broadcast_to_admins_witness :
    (adminConn.connId, deviceOnlineEvent "T" "c1" "C1") ∈
      broadcastToAdmins demoMixedRegistry (deviceOnlineEvent "T" "c1" "C1") ∧
    (bobConn.connId, deviceOnlineEvent "T" "c1" "C1") ∉
      broadcastToAdmins demoMixedRegistry (deviceOnlineEvent "T" "c1" "C1") :=
  ⟨(C5_broadcast_to_admins demoMixedRegistry (deviceOnlineEvent "T" "c1" "C1")
      (by decide)).1 ("ada", [adminConn]) (by decide) adminConn (by decide)
      (by decide) (by decide),
   (C5_broadcast_to_admins demoMixedRegistry (deviceOnlineEvent "T" "c1" "C1")
      (by decide)).2 ("bob", [bobConn]) (by decide) bobConn (by decide)
      (by decide) (deviceOnlineEvent "T" "c1" "C1")⟩

/-! ### C1 — routing to a single subject -/

/-- C1 (counterexample): `broadcastToUser` writes the event record verbatim,
so a connection registered under subject `"bob"` receives, from a
`broadcastToUser("bob", E)` call, an event whose wire `userId` field is
`some "alice"` — not equal to the targeted subject `"bob"`; nothing in the
routing method forces `userId == S`. -/
theorem C1_counterexample :
    (broadcastToUser demoBobRegistry "bob"
        (lampToggledEvent "T" "l1" "Lamp 1" true "alice")).2 =
      [(0, lampToggledEvent "T" "l1" "Lamp 1" true "alice")] ∧
    (lampToggledEvent "T" "l1" "Lamp 1" true "alice").userId ≠ some "bob" := by
  decide

/-- C1 (amended): for every `broadcastToUser(S, E)` call on a well-formed
registry, every connection registered under S with an open transport
receives exactly the record E (whose `userId` field is whatever E was
constructed with — it equals S precisely when the caller built E targeting
S, as the permission-event helpers do); every write of the call goes to a
connection registered under S and carries E verbatim; connections
registered under any other subject receive nothing; when S has no entry the
call sends nothing; and the registry is left unchanged. -/
theorem C1_route_to_subject (r : Registry) (u : String) (e : Event)
    (hk : keysNodup r) (hnd : nodupConnIds r) :
    (∀ s : List Conn, (u, s) ∈ r → ∀ c ∈ s, c.isOpen = true →
        (c.connId, e) ∈ (broadcastToUser r u e).2) ∧
    (∀ sd ∈ (broadcastToUser r u e).2, sd.2 = e ∧
        ∃ s : List Conn, (u, s) ∈ r ∧ ∃ c ∈ s, c.connId = sd.1) ∧
    (∀ en ∈ r, en.1 ≠ u → ∀ c ∈ en.2, ∀ ev : Event,
        (c.connId, ev) ∉ (broadcastToUser r u e).2) ∧
    (r.find? (fun en => en.1 = u) = none → (broadcastToUser r u e).2 = []) ∧
    (broadcastToUser r u e).1 = r := by
  refine ⟨?_, ?_, ?_, ?_, ?_⟩
  · intro s hs c hc hopen
    rw [broadcastToUser, find?_eq_some_of_mem hk hs]
    rw [List.mem_flatMap]
    exact ⟨c, hc, mem_sendToClient.mpr ⟨hopen, rfl⟩⟩
  · intro sd hsd
    rw [broadcastToUser] at hsd
    rcases hfind : r.find? (fun en => en.1 = u) with _ | en
    · rw [hfind] at hsd
      cases hsd
    · rw [hfind] at hsd
      rw [List.mem_flatMap] at hsd
      obtain ⟨c, hc, hmem⟩ := hsd
      obtain ⟨_, rfl⟩ := mem_sendToClient.mp hmem
      have hu : en.1 = u := by simpa using List.find?_some hfind
      have hr : (u, en.2) ∈ r := by
        have := List.mem_of_find?_eq_some hfind
        rwa [← hu, Prod.mk.eta]
      exact ⟨rfl, en.2, hr, c, hc, rfl⟩
  · intro en hen hneu c hc ev hmem
    rw [broadcastToUser] at hmem
    rcases hfind : r.find? (fun en => en.1 = u) with _ | en'
    · rw [hfind] at hmem
      cases hmem
    · rw [hfind] at hmem
      rw [List.mem_flatMap] at hmem
      obtain ⟨c', hc', hmem'⟩ := hmem
      obtain ⟨_, heq⟩ := mem_sendToClient.mp hmem'
      have hu : en'.1 = u := by simpa using List.find?_some hfind
      have hen' : en' ∈ r := List.mem_of_find?_eq_some hfind
      have hne : en.1 ≠ en'.1 := hu ▸ hneu
      exact connId_ne_of_entries hnd hen hen' hne hc hc'
        (congrArg Prod.fst heq)
  · intro hfind
    rw [broadcastToUser, hfind]
  · rw [broadcastToUser]
    split <;> rfl

theorem C1_route_to_subject_witness :
    (bobConn.connId, permissionGrantedEvent "T" "lamp" "l1" "control" "bob") ∈
      (broadcastToUser demoMixedRegistry "bob"
        (permissionGrantedEvent "T" "lamp" "l1" "control" "bob")).2 ∧
    (adminConn.connId, permissionGrantedEvent "T" "lamp" "l1" "control" "bob") ∉
      (broadcastToUser demoMixedRegistry "bob"
        (permissionGrantedEvent "T" "lamp" "l1" "control" "bob")).2 ∧
    (broadcastToUser demoMixedRegistry "bob"
        (permissionGrantedEvent "T" "lamp" "l1" "control" "bob")).1 =
      demoMixedRegistry :=
  ⟨(C1_route_to_subject demoMixedRegistry "bob"
      (permissionGrantedEvent "T" "lamp" "l1" "control" "bob")
      (by decide) (by decide)).1 [bobConn] (by decide) bobConn (by decide)
      (by decide),
   (C1_route_to_subject demoMixedRegistry "bob"
      (permissionGrantedEvent "T" "lamp" "l1" "control" "bob")
      (by decide) (by decide)).2.2.1 ("ada", [adminConn]) (by decide)
      (by decide) adminConn (by decide)
      (permissionGrantedEvent "T" "lamp" "l1" "control" "bob"),
   (C1_route_to_subject demoMixedRegistry "bob"
      (permissionGrantedEvent "T" "lamp" "l1" "control" "bob")
      (by decide) (by decide)).2.2.2.2⟩

/-! ### C9 — unresponsive connections are gone after two sweeps -/

theorem sweepSet_mem {s : List Conn} {c : Conn} (hc : c ∈ sweepSet s) :
    ∃ y ∈ s, y.isAlive = true ∧ c = { y with isAlive := false } := by
  rw [sweepSet, List.mem_map] at hc
  obtain ⟨y, hy, rfl⟩ := hc
  exact ⟨y, List.mem_of_mem_filter hy, by
    simpa using List.of_mem_filter hy, rfl⟩

theorem sweep_all_unconfirmed {r : Registry} :
    ∀ en ∈ sweep r, ∀ c ∈ en.2, c.isAlive = false := by
  induction r with
  | nil => exact fun en hen => absurd hen (List.not_mem_nil en)
  | cons en0 rest ih =>
    obtain ⟨k, s⟩ := en0
    rw [sweep]
    split
    · exact ih
    · intro en hen c hc
      rcases List.mem_cons.mp hen with h | h
      · subst h
        obtain ⟨y, _, _, rfl⟩ := sweepSet_mem hc
        rfl
      · exact ih en h c hc

theorem pongConn_dead {r : Registry} {cid p : Nat} (hne : cid ≠ p)
    (hd : deadOrAbsent r cid) : deadOrAbsent (pongConn r p) cid := by
  intro en hen c hc hcid
  rw [pongConn, List.mem_map] at hen
  obtain ⟨en0, hen0, rfl⟩ := hen
  rw [List.mem_map] at hc
  obtain ⟨y, hy, rfl⟩ := hc
  by_cases hyp : y.connId = p
  · rw [if_pos hyp] at hcid
    have h1 : y.connId = cid := hcid
    exact absurd (h1 ▸ hyp) hne
  · rw [if_neg hyp] at hcid ⊢
    exact hd en0 hen0 y hy hcid

theorem applyPongs_dead {r : Registry} {cid : Nat} {l : List Nat}
    (hl : cid ∉ l) (hd : deadOrAbsent r cid) :
    deadOrAbsent (applyPongs r l) cid := by
  induction l generalizing r with
  | nil => exact hd
  | cons p rest ih =>
    rw [List.mem_cons, not_or] at hl
    exact ih hl.2 (pongConn_dead hl.1 hd)

theorem sweep_removes_dead {r : Registry} {cid : Nat}
    (hd : deadOrAbsent r cid) :
    ∀ en ∈ sweep r, ∀ c ∈ en.2, c.connId ≠ cid := by
  induction r with
  | nil => exact fun en hen => absurd hen (List.not_mem_nil en)
  | cons en0 rest ih =>
    obtain ⟨k, s⟩ := en0
    have hdrest : deadOrAbsent rest cid :=
      fun en hen c hc => hd en (List.mem_cons_of_mem _ hen) c hc
    rw [sweep]
    split
    · exact ih hdrest
    · intro en hen c hc
      rcases List.mem_cons.mp hen with h | h
      · subst h
        obtain ⟨y, hy, hyalive, rfl⟩ := sweepSet_mem hc
        intro hcid
        have : y.isAlive = false :=
          hd (k, s) (List.mem_cons_self _ _) y hy hcid
        rw [hyalive] at this
        cases this
      · exact ih hdrest en h c hc

theorem keys_pongConn (r : Registry) (p : Nat) :
    (pongConn r p).map Prod.fst = r.map Prod.fst := by
  rw [pongConn, List.map_map]
  rfl

theorem applyPongs_cons (r : Registry) (p : Nat) (rest : List Nat) :
    applyPongs r (p :: rest) = applyPongs (pongConn r p) rest := rfl

theorem keys_applyPongs (r : Registry) (l : List Nat) :
    (applyPongs r l).map Prod.fst = r.map Prod.fst := by
  induction l generalizing r with
  | nil => rfl
  | cons p rest ih =>
    rw [applyPongs_cons, ih, keys_pongConn]

theorem keys_sweep_sublist (r : Registry) :
    List.Sublist ((sweep r).map Prod.fst) (r.map Prod.fst) := by
  induction r with
  | nil => exact List.Sublist.refl _
  | cons en0 rest ih =>
    obtain ⟨k, s⟩ := en0
    rw [sweep]
    split
    · exact List.Sublist.cons _ ih
    · exact List.Sublist.cons₂ _ ih

theorem pongConn_single_entry {r : Registry} {u : String} {c : Conn} {p : Nat}
    (h : (u, [c]) ∈ r) (hne : c.connId ≠ p) : (u, [c]) ∈ pongConn r p := by
  rw [pongConn, List.mem_map]
  refine ⟨(u, [c]), h, ?_⟩
  simp [hne]

theorem applyPongs_single_entry {r : Registry} {u : String} {c : Conn}
    {l : List Nat} (h : (u, [c]) ∈ r) (hl : c.connId ∉ l) :
    (u, [c]) ∈ applyPongs r l := by
  induction l generalizing r with
  | nil => exact h
  | cons p rest ih =>
    rw [List.mem_cons, not_or] at hl
    exact ih (pongConn_single_entry h hl.1) hl.2

theorem sweep_drops_entry {r : Registry} {u : String} {s : List Conn}
    (hk : keysNodup r) (h : (u, s) ∈ r) (hdead : sweepSet s = []) :
    u ∉ (sweep r).map Prod.fst := by
  induction r with
  | nil => cases h
  | cons en0 rest ih =>
    obtain ⟨k, t⟩ := en0
    rw [keysNodup, List.map_cons, List.nodup_cons] at hk
    rcases List.mem_cons.mp h with heq | hmem
    · cases heq
      rw [sweep, if_pos (by rw [hdead]; rfl)]
      intro hcon
      exact hk.1 (List.Sublist.subset (keys_sweep_sublist rest) hcon)
    · have hu : u ∈ rest.map Prod.fst := List.mem_map.mpr ⟨(u, s), hmem, rfl⟩
      have hku : k ≠ u := fun he => hk.1 (he ▸ hu)
      rw [sweep]
      split
      · exact ih hk.2 hmem
      · intro hcon
        rcases List.mem_cons.mp hcon with he | he
        · exact hku he.symm
        · exact ih hk.2 hmem he

theorem sweep_keeps_entry {r : Registry} {u : String} {s : List Conn}
    (h : (u, s) ∈ r) (halive : sweepSet s ≠ []) :
    (u, sweepSet s) ∈ sweep r := by
  induction r with
  | nil => cases h
  | cons en0 rest ih =>
    obtain ⟨k, t⟩ := en0
    rcases List.mem_cons.mp h with heq | hmem
    · cases heq
      rw [sweep, if_neg (by simpa [List.isEmpty_iff] using halive)]
      exact List.mem_cons_self _ _
    · rw [sweep]
      split
      · exact ih hmem
      · exact List.mem_cons_of_mem _ (ih hmem)

/-- C9: over the sweep-tick step relation (a sweep terminates and removes
every connection still unconfirmed, then marks survivors unconfirmed and
pings them; pong answers set `isAlive` back between sweeps), a connection
that never answers a probe is gone from the registry after two sweeps —
for every connection identity, however it is registered, also one of
several under the same subject — and when it was its subject's only
connection, the subject-id no longer appears in `getConnectedUserIds`;
two sweep intervals are 60 seconds at the 30-second default. -/
theorem C9_liveness_two_sweeps (r : Registry) (u : String) (c : Conn)
    (l1 l2 : List Nat) (hk : keysNodup r)
    (h1 : c.connId ∉ l1) (h2 : c.connId ∉ l2) :
    (∀ en ∈ sweep (applyPongs (sweep (applyPongs r l1)) l2), ∀ x ∈ en.2,
        x.connId ≠ c.connId) ∧
    ((u, [c]) ∈ r →
      u ∉ getConnectedUserIds (sweep (applyPongs (sweep (applyPongs r l1)) l2))) ∧
    2 * heartbeatIntervalMs = 60000 := by
  refine ⟨?_, ?_, rfl⟩
  · have d2 : deadOrAbsent (sweep (applyPongs r l1)) c.connId :=
      fun en hen x hx _ => sweep_all_unconfirmed en hen x hx
    have d3 : deadOrAbsent (applyPongs (sweep (applyPongs r l1)) l2) c.connId :=
      applyPongs_dead h2 d2
    exact sweep_removes_dead d3
  · intro hmem
    have hk1 : keysNodup (applyPongs r l1) := by
      rw [keysNodup, keys_applyPongs]
      exact hk
    have e1 : (u, [c]) ∈ applyPongs r l1 := applyPongs_single_entry hmem h1
    rw [getConnectedUserIds]
    cases hAlive : c.isAlive with
    | false =>
      have hdead : sweepSet [c] = [] := by
        simp [sweepSet, hAlive]
      have hnot2 : u ∉ (sweep (applyPongs r l1)).map Prod.fst :=
        sweep_drops_entry hk1 e1 hdead
      have hnot3 : u ∉ (applyPongs (sweep (applyPongs r l1)) l2).map Prod.fst := by
        rw [keys_applyPongs]
        exact hnot2
      intro hcon
      exact hnot3 (List.Sublist.subset (keys_sweep_sublist _) hcon)
    | true =>
      have halive : sweepSet [c] = [{ c with isAlive := false }] := by
        simp [sweepSet, hAlive]
      have e2 : (u, [{ c with isAlive := false }]) ∈ sweep (applyPongs r l1) := by
        have hkeep := sweep_keeps_entry e1
          (by rw [halive]; exact List.cons_ne_nil _ _)
        rwa [halive] at hkeep
      have hk2 : keysNodup (sweep (applyPongs r l1)) := by
        rw [keysNodup]
        exact List.Nodup.sublist (keys_sweep_sublist _) hk1
      have e3 : (u, [{ c with isAlive := false }]) ∈
          applyPongs (sweep (applyPongs r l1)) l2 :=
        applyPongs_single_entry e2 (by simpa using h2)
      have hk3 : keysNodup (applyPongs (sweep (applyPongs r l1)) l2) := by
        rw [keysNodup, keys_applyPongs]
        exact hk2
      exact sweep_drops_entry hk3 e3 (by simp [sweepSet])

theorem C9_liveness_two_sweeps_witness :
    "bob" ∉ getConnectedUserIds
      (sweep (applyPongs (sweep (applyPongs demoBobRegistry [])) [])) ∧
    2 * heartbeatIntervalMs = 60000 :=
  ⟨(C9_liveness_two_sweeps demoBobRegistry "bob" bobConn [] []
      (by decide) (by decide) (by decide)).2.1 (by decide),
   (C9_liveness_two_sweeps demoBobRegistry "bob" bobConn [] []
      (by decide) (by decide) (by decide)).2.2⟩
